import Mathlib

/-!
Shallow embedding of src/nalco_scraper.py: the document locator, the change
gate, the IE07 record extractor, price and date normalization, the ledger
store and the run-audit log, together with the orchestration in main().
External collaborators (HTTP transport, filesystem, spreadsheet styling,
clocks) enter only through explicit input data.
-/

namespace Nalco

/- ===================== string utilities ===================== -/

/-- ASCII whitespace as removed by Python str.strip(). -/
def isSpaceC (c : Char) : Bool :=
  c = ' ' || c = '\t' || c = '\n' || c = '\r' || c.toNat = 11 || c.toNat = 12

def isDigitC (c : Char) : Bool := 48 ≤ c.toNat && c.toNat ≤ 57

def isAlphaC (c : Char) : Bool :=
  (65 ≤ c.toNat && c.toNat ≤ 90) || (97 ≤ c.toNat && c.toNat ≤ 122)

/-- Word character of the regex word-boundary test (ASCII model of \w). -/
def isWordC (c : Char) : Bool := isDigitC c || isAlphaC c || c = '_'

/-- ASCII lower-casing of one character (str.lower). -/
def lowC (c : Char) : Char :=
  if 65 ≤ c.toNat && c.toNat ≤ 90 then Char.ofNat (c.toNat + 32) else c

/-- ASCII upper-casing of one character (str.upper). -/
def upC (c : Char) : Char :=
  if 97 ≤ c.toNat && c.toNat ≤ 122 then Char.ofNat (c.toNat - 32) else c

def stripL (l : List Char) : List Char :=
  ((l.dropWhile isSpaceC).reverse.dropWhile isSpaceC).reverse

/-- Python s.strip(). -/
def pyStrip (s : String) : String := String.mk (stripL s.data)

/-- Python s.lower() (ASCII fragment). -/
def pyLower (s : String) : String := String.mk (s.data.map lowC)

/-- Python s.upper() (ASCII fragment). -/
def pyUpper (s : String) : String := String.mk (s.data.map upC)

/-- norm(s) = (s or "").strip().lower() from the source. -/
def norm (s : String) : String := pyLower (pyStrip s)

/-- Substring test: Python `needle in hay`. -/
def containsL (hay needle : List Char) : Bool :=
  (List.range (hay.length + 1)).any (fun i => needle.isPrefixOf (hay.drop i))

/-- Python s.replace(",", ""). -/
def removeCommas (s : String) : String := String.mk (s.data.filter (fun c => c ≠ ','))

/- ===================== dated-filename pattern ===================== -/

/-- Numeric value of a two-digit pair. -/
def d2 (a b : Char) : Nat := (a.toNat - 48) * 10 + (b.toNat - 48)

/-- Numeric value of a four-digit group. -/
def d4 (a b c d : Char) : Nat := ((a.toNat - 48) * 10 + (b.toNat - 48)) * 100 + d2 c d

/-- DATEY_PDF_RE.search: the string ends, case-insensitively, in
Ingot-DD-MM-YYYY.pdf; on a match, returns the (day, month, year) digits.
(The regex is end-anchored, so a match is exactly a 20-character suffix of
this shape.) -/
def dateyMatch (s : String) : Option (Nat × Nat × Nat) :=
  let l := s.data
  match l.drop (l.length - 20) with
  | [i1, i2, i3, i4, i5, h1, dA, dB, h2, mA, mB, h3, yA, yB, yC, yD, p1, p2, p3, p4] =>
    if ([i1, i2, i3, i4, i5].map lowC = "ingot".data) && h1 = '-'
        && isDigitC dA && isDigitC dB && h2 = '-'
        && isDigitC mA && isDigitC mB && h3 = '-'
        && isDigitC yA && isDigitC yB && isDigitC yC && isDigitC yD
        && ([p1, p2, p3, p4].map lowC = ".pdf".data) then
      some (d2 dA dB, d2 mA mB, d4 yA yB yC yD)
    else none
  | _ => none

def isLeap (y : Nat) : Bool := y % 4 = 0 && (y % 100 ≠ 0 || y % 400 = 0)

def daysInMonth (y m : Nat) : Nat :=
  if m = 2 then (if isLeap y then 29 else 28)
  else if m = 4 || m = 6 || m = 9 || m = 11 then 30
  else 31

/-- Success condition of the datetime.date(y, m, d) constructor
(MINYEAR..MAXYEAR and a valid calendar day). -/
def validDate (d m y : Nat) : Bool :=
  1 ≤ y && y ≤ 9999 && 1 ≤ m && m ≤ 12 && 1 ≤ d && d ≤ daysInMonth y m

/-- Two-digit zero-padded decimal rendering. -/
def fmt2 (n : Nat) : List Char := [Char.ofNat (48 + n / 10 % 10), Char.ofNat (48 + n % 10)]

/-- Four-digit zero-padded decimal rendering. -/
def fmt4 (n : Nat) : List Char :=
  [Char.ofNat (48 + n / 1000 % 10), Char.ofNat (48 + n / 100 % 10),
   Char.ofNat (48 + n / 10 % 10), Char.ofNat (48 + n % 10)]

/-- strftime("%d-%m-%Y") on a (day, month, year) triple. -/
def fmtDMY : Nat × Nat × Nat → String
  | (d, m, y) => String.mk (fmt2 d ++ ('-' :: fmt2 m) ++ ('-' :: fmt4 y))

/-- parse_circular_date_from_filename: embedded date from the filename when
it carries a valid Ingot-DD-MM-YYYY.pdf suffix, else today's date.  `today`
is the clock collaborator (datetime.date.today()). -/
def parse_circular_date_from_filename (name : String) (today : Nat × Nat × Nat) : String :=
  match dateyMatch name with
  | some (d, m, y) => if validDate d m y then fmtDMY (d, m, y) else fmtDMY today
  | none => fmtDMY today

/- ===================== document locator ===================== -/

/-- A p-element of the parsed page: its text and, when it sits inside a
link, the enclosing link's href (find_parent("a", href=True)). -/
structure PNode where
  text : String
  parentHref : Option String
deriving Repr, DecidableEq

/-- An href-bearing a-element of the parsed page. -/
structure Anchor where
  text : String
  href : String
deriving Repr, DecidableEq

/-- Parsed page content: p-elements and a-elements in document order. -/
structure HtmlPage where
  ps : List PNode
  anchors : List Anchor
deriving Repr, DecidableEq

/-- urljoin(NALCO_URL, href) for the base
https://nalcoindia.com/domestic/current-price/, modelling the stdlib
resolution for the href shapes concerned: absolute, root-relative and
plain relative references. -/
def urljoinNalco (href : String) : String :=
  if "http://".data.isPrefixOf href.data || "https://".data.isPrefixOf href.data then href
  else if "/".data.isPrefixOf href.data then "https://nalcoindia.com" ++ href
  else "https://nalcoindia.com/domestic/current-price/" ++ href

/-- The filter applied to every candidate href: strip, then require a
".pdf" suffix (case-insensitive) and no "spec" substring (case-insensitive).
Returns the stripped href when it passes. -/
def pdfOkHref (href : String) : Option String :=
  let h := pyStrip href
  if ".pdf".data.isSuffixOf (pyLower h).data
      && !(containsL (pyLower h).data "spec".data) then some h
  else none

/-- Tier 1 of find_ingots_pdf_url: the first p whose normalized text is
exactly "ingots" sitting inside a link with an acceptable pdf href. -/
def strictIngotsHref (pg : HtmlPage) : Option String :=
  pg.ps.findSome? fun p =>
    if norm p.text = "ingots" then
      match p.parentHref with
      | some a => pdfOkHref a
      | none => none
    else none

/-- Tier 2: the first acceptable pdf link whose href ends in
Ingot-DD-MM-YYYY.pdf. -/
def dateyPdfHref (pg : HtmlPage) : Option String :=
  pg.anchors.findSome? fun a =>
    match pdfOkHref a.href with
    | some h => if (dateyMatch h).isSome then some h else none
    | none => none

/-- Tier 3: the first acceptable pdf link whose normalized anchor text
contains "ingot". -/
def looseIngotHref (pg : HtmlPage) : Option String :=
  pg.anchors.findSome? fun a =>
    let txt := norm a.text
    let h := pyStrip a.href
    if ".pdf".data.isSuffixOf (pyLower h).data
        && containsL txt.data "ingot".data
        && !(containsL (pyLower h).data "spec".data) then some h
    else none

/-- find_ingots_pdf_url: three tiers in strict priority order, first match
wins, resolved against the page URL. -/
def find_ingots_pdf_url (pg : HtmlPage) : Option String :=
  match strictIngotsHref pg with
  | some h => some (urljoinNalco h)
  | none =>
    match dateyPdfHref pg with
    | some h => some (urljoinNalco h)
    | none => (looseIngotHref pg).map urljoinNalco

/- ===================== record extractor ===================== -/

/-- A positioned word from page.extract_words: its text, vertical
coordinate (top) and horizontal coordinate (x0). -/
structure Word where
  text : String
  top : ℚ
  x0 : ℚ
deriving Repr, DecidableEq

/-- One decoded pdf page: its extracted tables (rows of possibly-absent
cell strings) and its positioned words. -/
structure PdfPage where
  tables : List (List (List (Option String)))
  words : List Word
deriving Repr, DecidableEq

/-- A decoded pdf document: its pages in order. -/
abbrev PdfDoc := List PdfPage

/-- The record dict returned by extract_row_ie07. -/
structure IE07Record where
  description : String
  productCode : String
  basicPrice : String
deriving Repr, DecidableEq

/-- re.fullmatch("IE07", x, IGNORECASE). -/
def isIE07 (x : String) : Bool := pyLower x = "ie07"

/-- re.fullmatch of digits optionally followed by a point and digits
(the purely-numeric test used to reject description cells). -/
def isNumericLike (s : String) : Bool :=
  let l := s.data
  let ds := l.takeWhile isDigitC
  let rest := l.drop ds.length
  !ds.isEmpty && (rest.isEmpty ||
    (rest.headD ' ' = '.' && !(rest.drop 1).isEmpty && (rest.drop 1).all isDigitC))

/-- One row of the structured-table strategy: when a cell equals IE07,
description is the nearest non-empty non-numeric cell to its left (or the
upper-cased default), price the first digit-bearing cell to its right with
commas removed; accepted only when the price is non-empty. -/
def scanTableRow (row : List (Option String)) : Option IE07Record :=
  let cells := row.map (fun c => pyStrip (c.getD ""))
  if cells.any isIE07 then
    match cells.findIdx? isIE07 with
    | some i =>
      let desc := (((cells.take i).reverse.find?
        (fun c => !c.isEmpty && !isNumericLike c)).getD "")
      let price := (((cells.drop (i + 1)).find?
        (fun c => c.data.any isDigitC)).map removeCommas).getD ""
      if !price.isEmpty then
        some { description := pyUpper (if desc.isEmpty then "ALUMINIUM INGOT" else desc),
               productCode := "IE07", basicPrice := price }
      else none
    | none => none
  else none

/-- Scan one table's rows in order. -/
def scanTable (tbl : List (List (Option String))) : Option IE07Record :=
  tbl.findSome? scanTableRow

/-- Table strategy over one page. -/
def scanTables (p : PdfPage) : Option IE07Record :=
  p.tables.findSome? scanTable

/-- Round half to even of the fraction a / b (b positive): the behaviour
of Python round on exactly representable values.  f is the floor of the
quotient and r2 twice the remainder, so r2 < b, b < r2 and r2 = b decide
below-half, above-half and the even tie-break. -/
def rndHEInt (a b : ℤ) : ℤ :=
  let f := a.fdiv b
  let r2 := 2 * (a - f * b)
  if r2 < b then f else if b < r2 then f + 1 else if f % 2 = 0 then f else f + 1

/-- round(x, 1): half-even rounding of q * 10, divided back by 10
(q * 10 = q.num * 10 / q.den exactly). -/
def round1 (q : ℚ) : ℚ := Rat.divInt (rndHEInt (q.num * 10) (q.den : ℤ)) 10

/-- round(x, 3): half-even rounding of q * 1000, divided back by 1000. -/
def round3 (q : ℚ) : ℚ := Rat.divInt (rndHEInt (q.num * 1000) (q.den : ℤ)) 1000

/-- Distinct keys in first-occurrence order: the iteration order of the
dict built by lines.setdefault in the line-scan. -/
def firstKeys (l : List ℚ) : List ℚ :=
  l.foldl (fun acc k => if k ∈ acc then acc else acc ++ [k]) []

/-- Stable insertion step: a goes after every element strictly before it,
and before the first element not strictly before it (so after earlier
equals). -/
def insertLe {α : Type} (le : α → α → Bool) (a : α) : List α → List α
  | [] => [a]
  | b :: bs => if le b a && !(le a b) then b :: insertLe le a bs else a :: b :: bs

/-- Stable sort by the boolean relation le, modelling Python sorted and
the pandas stable sort kind. -/
def stableSort {α : Type} (le : α → α → Bool) : List α → List α
  | [] => []
  | x :: xs => insertLe le x (stableSort le xs)

/-- Reconstructed text of one line: words sorted (stably) by x0 and
joined with single spaces. -/
def lineText (ws : List Word) : String :=
  String.intercalate " " ((stableSort (fun a b => decide (a.x0 ≤ b.x0)) ws).map Word.text)

/-- re.search of the whole-word IE07 pattern, case-insensitively: an
occurrence of "ie07" in the lowered line with word boundaries on both
sides. -/
def hasIE07Word (s : String) : Bool :=
  let l := (pyLower s).data
  (List.range (l.length + 1)).any fun i =>
    "ie07".data.isPrefixOf (l.drop i) &&
    (i = 0 || !isWordC (l.getD (i - 1) ' ')) &&
    !isWordC (l.getD (i + 4) ' ')

/-- re.search of a trailing 5-to-7-digit run, optionally with a decimal
fraction, at the end of the line (up to trailing whitespace).  With the
leftmost-match rule this is: the last at-most-seven digits of the final
digit run, carrying the fraction when the run before the point is long
enough, else the last at-most-seven fractional digits alone. -/
def linePrice (s : String) : Option String :=
  let l := (s.data.reverse.dropWhile isSpaceC).reverse
  let revl := l.reverse
  let fdigits := revl.takeWhile isDigitC
  if !fdigits.isEmpty && revl.getD fdigits.length ' ' = '.' then
    let intPart := l.take (l.length - fdigits.length - 1)
    let run := intPart.reverse.takeWhile isDigitC
    if 5 ≤ run.length then
      some (String.mk ((run.take 7).reverse ++ ('.' :: fdigits.reverse)))
    else if 5 ≤ fdigits.length then
      some (String.mk (fdigits.take 7).reverse)
    else none
  else
    let run := revl.takeWhile isDigitC
    if 5 ≤ run.length then some (String.mk (run.take 7).reverse) else none

/-- Character class [A-Za-z ] of the description pattern. -/
def letterSpace (c : Char) : Bool := isAlphaC c || c = ' '

/-- Word boundary of the regex engine at position r of l (positions
outside the string count as non-word). -/
def boundaryAt (l : List Char) (r : Nat) : Bool :=
  (if r = 0 then false else isWordC (l.getD (r - 1) ' ')) ≠ isWordC (l.getD r ' ')

/-- Match of [A-Z ]*INGOT[A-Z ]* followed by a word boundary, built around
the "ingot" occurrence at index i: expand left and right over [A-Za-z ],
then give back the right end until a word boundary holds. -/
def descAt (l : List Char) (i : Nat) : Option (List Char) :=
  let p := i - ((l.take i).reverse.takeWhile letterSpace).length
  let rmax := i + 5 + ((l.drop (i + 5)).takeWhile letterSpace).length
  ((List.range (rmax - (i + 5) + 1)).find? (fun k => boundaryAt l (rmax - k))).map
    (fun k => (l.take (rmax - k)).drop p)

/-- re.search of ([A-Z ]*INGOT[A-Z ]*) with a trailing word boundary,
case-insensitively: the first "ingot" occurrence around which a boundary
can be placed yields the captured group. -/
def lineDescMatch (s : String) : Option String :=
  let l := s.data
  let low := l.map lowC
  ((List.range l.length).filter
      (fun i => "ingot".data.isPrefixOf (low.drop i))).findSome?
    (fun i => (descAt l i).map String.mk)

/-- The line-scan step on one reconstructed line: a whole-word IE07 match
yields the trailing price (commas removed) and the stripped, upper-cased
description match (or the default); accepted only when a price is found. -/
def scanLine (t : String) : Option IE07Record :=
  if hasIE07Word t then
    if !(removeCommas ((linePrice t).getD "")).isEmpty then
      some { description := pyUpper (pyStrip ((lineDescMatch t).getD "ALUMINIUM INGOT")),
             productCode := "IE07",
             basicPrice := removeCommas ((linePrice t).getD "") }
    else none
  else none

/-- Line-scan fallback over one page: group words into lines by the
rounded top coordinate, in first-occurrence order, and scan each line. -/
def scanWords (p : PdfPage) : Option IE07Record :=
  (firstKeys (p.words.map (fun w => round1 w.top))).findSome? fun k =>
    scanLine (lineText (p.words.filter (fun w => round1 w.top = k)))

/-- One page of extract_row_ie07: structured tables first, then the
line-scan fallback of the same page. -/
def extractPage (p : PdfPage) : Option IE07Record :=
  match scanTables p with
  | some r => some r
  | none => scanWords p

/-- extract_row_ie07: pages in order, first accepted result wins; none
models the RuntimeError raised when the document is exhausted. -/
def extract_row_ie07 (doc : PdfDoc) : Option IE07Record :=
  doc.findSome? extractPage

/- ===================== price normalization ===================== -/

def natVal (l : List Char) : Nat := l.foldl (fun acc c => acc * 10 + (c.toNat - 48)) 0

/-- float() on a plain decimal literal: optional sign, digits, optional
point and digits; the exact value is sign * (intpart.fracpart) written as
one fraction over a power of ten.  (Exponent, underscore and inf/nan
literal forms do not occur in extracted prices and are outside this
embedding.) -/
def pyFloat (s : String) : Option ℚ :=
  let l := s.data
  let sl : ℤ × List Char :=
    match l with
    | '-' :: rest => (-1, rest)
    | '+' :: rest => (1, rest)
    | _ => (1, l)
  let ip := sl.2.takeWhile isDigitC
  match sl.2.drop ip.length with
  | [] => if ip.isEmpty then none else some (Rat.divInt (sl.1 * natVal ip) 1)
  | '.' :: fp =>
    if fp.all isDigitC && !(ip.isEmpty && fp.isEmpty) then
      some (Rat.divInt (sl.1 * (natVal ip * 10 ^ fp.length + natVal fp)) (10 ^ fp.length))
    else none
  | _ => none

/-- q / 1000, written on the normalized representation (the divisor is the
positive constant 1000, so the quotient is q.num / (q.den * 1000)). -/
def divQ1000 (q : ℚ) : ℚ := Rat.divInt q.num (q.den * 1000)

/-- to_thousands: commas removed, stripped, parsed as a number, divided by
1000 and rounded to 3 decimals; none on an empty or non-numeric string. -/
def to_thousands (s : String) : Option ℚ :=
  let v := pyStrip (removeCommas s)
  if v.isEmpty then none
  else
    match pyFloat v with
    | some x => some (round3 (divQ1000 x))
    | none => none

/- ===================== ledger store ===================== -/

/-- One persisted ledger row, after column healing to the canonical
column set (values read back from a pre-existing store may be absent). -/
structure Row where
  slNo : Option ℤ
  description : String
  productCode : String
  basicPrice : Option ℚ
  circularDate : String
  circularLink : String
deriving Repr, DecidableEq

/-- Strict DD-MM-YYYY parse with calendar validation: the behaviour of
pd.to_datetime(dayfirst=True, errors="coerce") on the canonical stored
date format (an invalid calendar date coerces to NaT, modelled none). -/
def parseDMY (s : String) : Option (Nat × Nat × Nat) :=
  match s.data with
  | [dA, dB, h1, mA, mB, h2, yA, yB, yC, yD] =>
    if isDigitC dA && isDigitC dB && h1 = '-' && isDigitC mA && isDigitC mB && h2 = '-'
        && isDigitC yA && isDigitC yB && isDigitC yC && isDigitC yD then
      let t := (d2 dA dB, d2 mA mB, d4 yA yB yC yD)
      if validDate t.1 t.2.1 t.2.2 then some t else none
    else none
  | _ => none

/-- Chronologically monotone encoding of a valid (day, month, year). -/
def encDMY : Nat × Nat × Nat → Nat
  | (d, m, y) => y * 10000 + m * 100 + d

/-- Sort key of the _date column: Circular Date descending, with
unparseable dates (NaT) last. -/
def dateKey (r : Row) : Nat :=
  match parseDMY r.circularDate with
  | some t => 100000000 - encDMY t
  | none => 200000000

/-- Ascending order on Sl.no. with missing values last (pandas na last). -/
def slLe (a b : Option ℤ) : Bool :=
  match a, b with
  | none, none => true
  | none, some _ => false
  | some _, none => true
  | some x, some y => x ≤ y

/-- The sort relation of sort_and_format_df: by _date descending then
Sl.no. ascending. -/
def rowLe (a b : Row) : Bool :=
  dateKey a < dateKey b || (dateKey a = dateKey b && slLe a.slNo b.slNo)

/-- Per-row re-normalization on save: Basic Price re-rounded to 3
decimals, Circular Date re-formatted DD-MM-YYYY (NaT formats to a blank
cell). -/
def normalizeRow (r : Row) : Row :=
  { r with basicPrice := r.basicPrice.map round3,
           circularDate := ((parseDMY r.circularDate).map fmtDMY).getD "" }

/-- sort_and_format_df: stable sort by Circular Date (desc) and Sl.no.
(asc), then numeric/date re-normalization of every row. -/
def sort_and_format_df (rows : List Row) : List Row :=
  (stableSort rowLe rows).map normalizeRow

/-- next Sl.no.: max of the existing non-missing values plus one, or 1
when there is none. -/
def nextSlNo (rows : List Row) : ℤ :=
  match (rows.filterMap Row.slNo).max? with
  | some m => m + 1
  | none => 1

/-- The row fields handed to append_to_excel by main (everything except
the Sl.no. it assigns). -/
structure NewRecord where
  description : String
  productCode : String
  basicPrice : ℚ
  circularDate : String
  circularLink : String
deriving Repr, DecidableEq

/-- append_to_excel: assign the next Sl.no., append, re-sort and
re-normalize the whole set; returns the saved rows and the new total. -/
def append_to_excel (rows : List Row) (nr : NewRecord) : List Row × Nat :=
  let r : Row := { slNo := some (nextSlNo rows), description := nr.description,
                   productCode := nr.productCode, basicPrice := some nr.basicPrice,
                   circularDate := nr.circularDate, circularLink := nr.circularLink }
  let out := sort_and_format_df (rows ++ [r])
  (out, out.length)

/- ===================== run-audit log ===================== -/

/-- One entry of the run log store. -/
structure LogEntry where
  runUtc : String
  runIst : String
  status : String
  message : String
  chosenUrl : String
  savedPdf : String
  rowsAppended : Nat
  totalRowsAfter : Option Nat
deriving Repr, DecidableEq

/-- append_runlog: one entry appended verbatim (the cosmetic reformatting
of the store does not touch entry contents). -/
def append_runlog (log : List LogEntry) (e : LogEntry) : List LogEntry := log ++ [e]

/- ===================== download ===================== -/

/-- The transport collaborator's answer to the document GET: status
outcome, declared headers, the final url path after redirects, the
clock-derived fallback name, and the decoded document. -/
structure Response where
  statusOk : Bool
  contentType : String
  contentDisposition : String
  finalUrlPath : String
  fallbackName : String
  doc : PdfDoc
deriving Repr, DecidableEq

/-- os.path.basename of a url path. -/
def basenameOf (p : String) : String :=
  String.mk ((p.data.reverse.takeWhile (fun c => c ≠ '/')).reverse)

/-- cd.split("filename=", 1)[1]: the part after the first occurrence. -/
def afterFilenameEq (cd : String) : String :=
  let l := cd.data
  match (List.range l.length).find?
      (fun i => "filename=".data.isPrefixOf (l.drop i)) with
  | some i => String.mk (l.drop (i + 9))
  | none => ""

/-- Python s.strip of the character set quote, semicolon, space. -/
def stripQuoted (s : String) : String :=
  let bad := fun (c : Char) => c = '"' || c = ';' || c = ' '
  String.mk (((s.data.dropWhile bad).reverse.dropWhile bad).reverse)

/-- Destination filename: Content-Disposition filename when present, else
the basename of the final url path, else the generated fallback name. -/
def deriveFilename (resp : Response) : String :=
  let fromCd := if containsL resp.contentDisposition.data "filename=".data then
      stripQuoted (afterFilenameEq resp.contentDisposition)
    else ""
  if !fromCd.isEmpty then fromCd
  else if !(basenameOf resp.finalUrlPath).isEmpty then basenameOf resp.finalUrlPath
  else resp.fallbackName

/-- download_pdf: error on a non-success status (raise_for_status) or a
declared Content-Type not containing application/pdf; on success the
saved filename and the decoded document. -/
def download_pdf (url : String) (resp : Response) : Except String (String × PdfDoc) :=
  if !resp.statusOk then Except.error ("HTTP error fetching " ++ url)
  else if !(containsL (pyLower resp.contentType).data "application/pdf".data) then
    Except.error
      ("Expected PDF but got Content-Type " ++ pyLower resp.contentType ++ " from " ++ url)
  else Except.ok (deriveFilename resp, resp.doc)

/- ===================== orchestrator ===================== -/

/-- Classified run outcome: the skip exits, the success exit, and a fatal
error propagating out of main (RuntimeError or a transport error). -/
inductive Outcome where
  | skippedNoDoc
  | skippedUnchanged
  | updated
  | fatal (msg : String)
deriving Repr, DecidableEq

/-- Persistent state across runs: the last-processed-url marker, the
ledger store and the run-audit log. -/
structure RunState where
  lastUrl : String
  ledger : List Row
  runlog : List LogEntry
deriving Repr, DecidableEq

/-- Inputs of one invocation: the fetched page, the transport's answer to
the document GET, and the clock collaborators. -/
structure RunInputs where
  page : HtmlPage
  resp : Response
  today : Nat × Nat × Nat
  runUtc : String
  runIst : String
deriving Repr, DecidableEq

/-- Result of one invocation: the outcome, the persistent state as left
on disk, and whether the document download was ever attempted. -/
structure RunResult where
  outcome : Outcome
  state : RunState
  downloaded : Bool
deriving Repr, DecidableEq

/-- main(): locate, gate on the last-processed url, download, update the
marker, extract, normalize the price, resolve the date, append to the
ledger and log the run.  A fatal error leaves the state exactly as
already written at that point and propagates. -/
def mainRun (inp : RunInputs) (st : RunState) : RunResult :=
  match find_ingots_pdf_url inp.page with
  | none =>
    let e : LogEntry :=
      { runUtc := inp.runUtc, runIst := inp.runIst, status := "SKIPPED",
        message := "No Ingots PDF link found on the page.", chosenUrl := "",
        savedPdf := "", rowsAppended := 0, totalRowsAfter := none }
    { outcome := Outcome.skippedNoDoc
      state := { st with runlog := append_runlog st.runlog e }
      downloaded := false }
  | some url =>
    if url = st.lastUrl then
      let e : LogEntry :=
        { runUtc := inp.runUtc, runIst := inp.runIst, status := "SKIPPED",
          message := "No change in PDF. Skipping download & Excel update.",
          chosenUrl := url, savedPdf := "", rowsAppended := 0, totalRowsAfter := none }
      { outcome := Outcome.skippedUnchanged
        state := { st with runlog := append_runlog st.runlog e }
        downloaded := false }
    else
      match download_pdf url inp.resp with
      | Except.error m => { outcome := Outcome.fatal m, state := st, downloaded := true }
      | Except.ok (fname, doc) =>
        let st1 : RunState := { st with lastUrl := url }
        match extract_row_ie07 doc with
        | none =>
          { outcome := Outcome.fatal "Could not find a row with Product Code IE07 in the PDF."
            state := st1, downloaded := true }
        | some rec =>
          match to_thousands rec.basicPrice with
          | none =>
            { outcome := Outcome.fatal
                ("Could not parse numeric price from " ++ rec.basicPrice)
              state := st1, downloaded := true }
          | some thousands =>
            let cdate := parse_circular_date_from_filename fname inp.today
            let nr : NewRecord :=
              { description := rec.description, productCode := rec.productCode,
                basicPrice := thousands, circularDate := cdate, circularLink := url }
            let res := append_to_excel st1.ledger nr
            let e : LogEntry :=
              { runUtc := inp.runUtc, runIst := inp.runIst, status := "UPDATED",
                message := "New circular processed.", chosenUrl := url,
                savedPdf := fname, rowsAppended := 1, totalRowsAfter := some res.2 }
            { outcome := Outcome.updated
              state := { lastUrl := url, ledger := res.1,
                         runlog := append_runlog st1.runlog e }
              downloaded := true }

/- ===================== concrete instances ===================== -/

/-- A description string is free of lower-case ASCII letters. -/
def noLowerStr (s : String) : Prop :=
  ∀ c ∈ s.data, ¬(97 ≤ c.toNat ∧ c.toNat ≤ 122)

/-- Page carrying the strict "Ingots" link of the end-to-end scenario. -/
def specPage : HtmlPage :=
  { ps := [{ text := "Ingots", parentHref := some "/c/Ingot-05-06-2024.pdf" }], anchors := [] }

/-- Document whose first page carries the IE07 table row. -/
def specDoc : PdfDoc :=
  [{ tables := [[[some "ALUMINIUM INGOT", some "IE07", some "268,250"]]], words := [] }]

/-- A successful pdf response delivering specDoc. -/
def okResp : Response :=
  { statusOk := true, contentType := "application/pdf", contentDisposition := "",
    finalUrlPath := "/c/Ingot-05-06-2024.pdf", fallbackName := "nalco_1.pdf", doc := specDoc }

/-- Inputs of the end-to-end scenario. -/
def inpOk : RunInputs :=
  { page := specPage, resp := okResp, today := (12, 10, 2026), runUtc := "u", runIst := "i" }

/-- Fresh persistent state: no marker, empty ledger, empty log. -/
def st0 : RunState := { lastUrl := "", ledger := [], runlog := [] }

/-- The same inputs with a failing document GET. -/
def inpBadStatus : RunInputs := { inpOk with resp := { okResp with statusOk := false } }

/-- Document whose only IE07 table row carries a non-numeric price. -/
def badPriceDoc : PdfDoc := [{ tables := [[[some "X", some "IE07", some "x1y"]]], words := [] }]

/-- The same inputs delivering badPriceDoc. -/
def inpBadPrice : RunInputs := { inpOk with resp := { okResp with doc := badPriceDoc } }

/-- Page 1 of the page-order counterexample: no tables, one word line the
line-scan accepts with price 12345. -/
def c1Page1 : PdfPage :=
  { tables := []
    words := [{ text := "IE07", top := 10, x0 := 0 }, { text := "12345", top := 10, x0 := 50 }] }

/-- Page 2 of the counterexample: a table row for IE07 with price 268,250. -/
def c1Page2 : PdfPage :=
  { tables := [[[some "ALUMINIUM INGOT", some "IE07", some "268,250"]]], words := [] }

/-- The two-page counterexample document. -/
def c1Doc : PdfDoc := [c1Page1, c1Page2]

/-- A page with no tables and no words. -/
def c1PageEmpty : PdfPage := { tables := [], words := [] }

/-- The counterexample document with page 1 emptied. -/
def c1DocB : PdfDoc := [c1PageEmpty, c1Page2]

/-- Page with both a strict "ingots"-labelled link and a differently-named
dated-filename link. -/
def c4Page : HtmlPage :=
  { ps := [{ text := " Ingots ", parentHref := some "/x/circ.pdf" }]
    anchors := [{ text := "x", href := "/y/Ingot-05-06-2024.pdf" }] }

/-- Ledger holding Sl.no. values 5, 1, 2 in display order. -/
def c5Ledger : List Row :=
  [{ slNo := some 5, description := "A", productCode := "IE07", basicPrice := none,
     circularDate := "01-01-2024", circularLink := "u1" },
   { slNo := some 1, description := "B", productCode := "IE07", basicPrice := none,
     circularDate := "03-01-2024", circularLink := "u2" },
   { slNo := some 2, description := "C", productCode := "IE07", basicPrice := none,
     circularDate := "02-01-2024", circularLink := "u3" }]

/-- A record to append to c5Ledger. -/
def c5New : NewRecord :=
  { description := "D", productCode := "IE07", basicPrice := mkRat 268250 1000,
    circularDate := "05-06-2024", circularLink := "u4" }

/-- Row with Sl.no. 3. -/
def c8Row3 : Row :=
  { slNo := some 3, description := "R3", productCode := "IE07", basicPrice := none,
    circularDate := "05-06-2024", circularLink := "a" }

/-- Row with Sl.no. 7 and the same circular date as c8Row3. -/
def c8Row7 : Row :=
  { slNo := some 7, description := "R7", productCode := "IE07", basicPrice := none,
    circularDate := "05-06-2024", circularLink := "b" }

/- ===================== helper lemmas ===================== -/

theorem exists_of_findSome {α β : Type} (f : α → Option β) (l : List α) (b : β)
    (h : l.findSome? f = some b) : ∃ a ∈ l, f a = some b := by
  induction l with
  | nil => simp [List.findSome?] at h
  | cons x xs ih =>
    rw [List.findSome?_cons] at h
    cases hx : f x with
    | some v =>
      rw [hx] at h
      exact ⟨x, List.mem_cons_self x xs, by simpa using hx.trans h⟩
    | none =>
      rw [hx] at h
      obtain ⟨a, ha, hfa⟩ := ih h
      exact ⟨a, List.mem_cons_of_mem x ha, hfa⟩

theorem charOfNat_toNat {n : Nat} (h : n < 55296) : (Char.ofNat n).toNat = n := by
  unfold Char.ofNat
  have hv : n.isValidChar := Or.inl h
  rw [dif_pos hv]
  simp [Char.ofNatAux, Char.toNat, UInt32.toNat, BitVec.toNat_ofNatLt]

/- ------ properties of the stable insertion sort ------ -/

theorem insertLe_perm {α : Type} (le : α → α → Bool) (a : α) (l : List α) :
    (insertLe le a l).Perm (a :: l) := by
  induction l with
  | nil => exact List.Perm.refl _
  | cons b bs ih =>
    unfold insertLe
    split
    · exact (ih.cons b).trans (List.Perm.swap a b bs)
    · exact List.Perm.refl _

theorem stableSort_perm {α : Type} (le : α → α → Bool) (l : List α) :
    (stableSort le l).Perm l := by
  induction l with
  | nil => exact List.Perm.refl _
  | cons x xs ih =>
    unfold stableSort
    exact (insertLe_perm le x _).trans (ih.cons x)

theorem sublist_insertLe {α : Type} (le : α → α → Bool) (a : α) (l : List α) :
    l.Sublist (insertLe le a l) := by
  induction l with
  | nil => exact List.nil_sublist _
  | cons b bs ih =>
    unfold insertLe
    split
    · exact ih.cons₂ b
    · exact (List.Sublist.refl _).cons a

theorem insertLe_pairwise {α : Type} {le : α → α → Bool}
    (htrans : ∀ a b c, le a b = true → le b c = true → le a c = true)
    (htotal : ∀ a b, (le a b || le b a) = true)
    (a : α) (l : List α) (h : l.Pairwise (fun x y => le x y = true)) :
    (insertLe le a l).Pairwise (fun x y => le x y = true) := by
  induction l with
  | nil => simp [insertLe]
  | cons b bs ih =>
    rcases List.pairwise_cons.mp h with ⟨hb, hbs⟩
    unfold insertLe
    split
    · rename_i hcond
      simp only [Bool.and_eq_true, Bool.not_eq_true'] at hcond
      refine List.pairwise_cons.mpr ⟨?_, ih hbs⟩
      intro y hy
      rcases List.mem_cons.mp ((insertLe_perm le a bs).mem_iff.mp hy) with rfl | hybs
      · exact hcond.1
      · exact hb y hybs
    · rename_i hcond
      have hab : le a b = true := by
        cases hx : le a b with
        | true => rfl
        | false =>
          have hba : le b a = true := by
            have htot := htotal a b
            rw [hx] at htot
            simpa using htot
          exact absurd (by rw [hba, hx]; rfl) hcond
      refine List.pairwise_cons.mpr ⟨?_, h⟩
      intro y hy
      rcases List.mem_cons.mp hy with rfl | hybs
      · exact hab
      · exact htrans a b y hab (hb y hybs)

theorem stableSort_pairwise {α : Type} {le : α → α → Bool}
    (htrans : ∀ a b c, le a b = true → le b c = true → le a c = true)
    (htotal : ∀ a b, (le a b || le b a) = true)
    (l : List α) : (stableSort le l).Pairwise (fun x y => le x y = true) := by
  induction l with
  | nil => exact List.Pairwise.nil
  | cons x xs ih =>
    unfold stableSort
    exact insertLe_pairwise htrans htotal x _ ih

theorem insertLe_eq {α : Type} (le : α → α → Bool) (a : α) (l : List α) :
    insertLe le a l =
      l.takeWhile (fun b => le b a && !(le a b)) ++
        a :: l.dropWhile (fun b => le b a && !(le a b)) := by
  induction l with
  | nil => rfl
  | cons b bs ih =>
    unfold insertLe
    split
    · rename_i hcond
      simp only [List.takeWhile_cons, List.dropWhile_cons, hcond]
      simp [ih]
    · rename_i hcond
      simp only [List.takeWhile_cons, List.dropWhile_cons]
      rw [if_neg (by simpa using hcond), if_neg (by simpa using hcond)]
      simp

theorem pair_sublist_stableSort {α : Type} {le : α → α → Bool}
    (a b : α) (hab : le a b = true) (l : List α) (hsub : [a, b].Sublist l) :
    [a, b].Sublist (stableSort le l) := by
  induction l with
  | nil => simp at hsub
  | cons x xs ih =>
    unfold stableSort
    cases hsub with
    | cons _ h => exact (ih h).trans (sublist_insertLe le x _)
    | cons₂ _ h =>
      have hbmem : b ∈ stableSort le xs :=
        (stableSort_perm le xs).mem_iff.mpr (List.singleton_sublist.mp h)
      rw [insertLe_eq]
      rcases List.mem_append.mp
          ((List.takeWhile_append_dropWhile
            (p := fun y => le y a && !(le a y)) (l := stableSort le xs)) ▸ hbmem) with hP | hS
      · have hp := List.mem_takeWhile_imp hP
        simp only [Bool.and_eq_true, Bool.not_eq_true'] at hp
        rw [hab] at hp
        exact absurd hp.2 (by simp)
      · exact ((List.singleton_sublist.mpr hS).cons₂ a).trans
          (List.sublist_append_right _ _)

/- ------ shape of mainRun on each exit path ------ -/

theorem mainRun_no_doc (inp : RunInputs) (st : RunState)
    (hf : find_ingots_pdf_url inp.page = none) :
    mainRun inp st =
      { outcome := Outcome.skippedNoDoc
        state := { st with runlog := st.runlog ++
          [{ runUtc := inp.runUtc, runIst := inp.runIst, status := "SKIPPED",
             message := "No Ingots PDF link found on the page.", chosenUrl := "",
             savedPdf := "", rowsAppended := 0, totalRowsAfter := none }] }
        downloaded := false } := by
  unfold mainRun
  simp only [hf]
  rfl

theorem mainRun_skip (inp : RunInputs) (st : RunState) (url : String)
    (hf : find_ingots_pdf_url inp.page = some url) (hg : url = st.lastUrl) :
    mainRun inp st =
      { outcome := Outcome.skippedUnchanged
        state := { st with runlog := st.runlog ++
          [{ runUtc := inp.runUtc, runIst := inp.runIst, status := "SKIPPED",
             message := "No change in PDF. Skipping download & Excel update.",
             chosenUrl := url, savedPdf := "", rowsAppended := 0, totalRowsAfter := none }] }
        downloaded := false } := by
  unfold mainRun
  simp only [hf, if_pos hg]
  rfl

theorem mainRun_dl_fatal (inp : RunInputs) (st : RunState) (url m : String)
    (hf : find_ingots_pdf_url inp.page = some url) (hg : url ≠ st.lastUrl)
    (hdl : download_pdf url inp.resp = Except.error m) :
    mainRun inp st = { outcome := Outcome.fatal m, state := st, downloaded := true } := by
  unfold mainRun
  simp only [hf, if_neg hg, hdl]

theorem mainRun_extract_fatal (inp : RunInputs) (st : RunState) (url fname : String)
    (doc : PdfDoc) (hf : find_ingots_pdf_url inp.page = some url) (hg : url ≠ st.lastUrl)
    (hdl : download_pdf url inp.resp = Except.ok (fname, doc))
    (he : extract_row_ie07 doc = none) :
    mainRun inp st =
      { outcome := Outcome.fatal "Could not find a row with Product Code IE07 in the PDF."
        state := { st with lastUrl := url }, downloaded := true } := by
  unfold mainRun
  simp only [hf, if_neg hg, hdl, he]

theorem mainRun_price_fatal (inp : RunInputs) (st : RunState) (url fname : String)
    (doc : PdfDoc) (rec : IE07Record)
    (hf : find_ingots_pdf_url inp.page = some url) (hg : url ≠ st.lastUrl)
    (hdl : download_pdf url inp.resp = Except.ok (fname, doc))
    (he : extract_row_ie07 doc = some rec) (ht : to_thousands rec.basicPrice = none) :
    mainRun inp st =
      { outcome := Outcome.fatal ("Could not parse numeric price from " ++ rec.basicPrice)
        state := { st with lastUrl := url }, downloaded := true } := by
  unfold mainRun
  simp only [hf, if_neg hg, hdl, he, ht]

theorem mainRun_updated_eq (inp : RunInputs) (st : RunState) (url fname : String)
    (doc : PdfDoc) (rec : IE07Record) (q : ℚ)
    (hf : find_ingots_pdf_url inp.page = some url) (hg : url ≠ st.lastUrl)
    (hdl : download_pdf url inp.resp = Except.ok (fname, doc))
    (he : extract_row_ie07 doc = some rec) (ht : to_thousands rec.basicPrice = some q) :
    mainRun inp st =
      { outcome := Outcome.updated
        state :=
          { lastUrl := url
            ledger := (append_to_excel st.ledger
              { description := rec.description, productCode := rec.productCode,
                basicPrice := q,
                circularDate := parse_circular_date_from_filename fname inp.today,
                circularLink := url }).1
            runlog := append_runlog st.runlog
              { runUtc := inp.runUtc, runIst := inp.runIst, status := "UPDATED",
                message := "New circular processed.", chosenUrl := url, savedPdf := fname,
                rowsAppended := 1,
                totalRowsAfter := some (append_to_excel st.ledger
                  { description := rec.description, productCode := rec.productCode,
                    basicPrice := q,
                    circularDate := parse_circular_date_from_filename fname inp.today,
                    circularLink := url }).2 } }
        downloaded := true } := by
  unfold mainRun
  simp only [hf, if_neg hg, hdl, he, ht]

/- ===================== C4: locator tier priority ===================== -/

/-- C4: whenever the strict "ingots"-anchor tier matches some href, the
locator returns that href resolved, never the dated-filename tier's
candidate: the tiers are consulted in strict priority order. -/
theorem c4_tier_priority (pg : HtmlPage) (h d : String)
    (hs : strictIngotsHref pg = some h) (_hd : dateyPdfHref pg = some d) :
    find_ingots_pdf_url pg = some (urljoinNalco h) := by
  unfold find_ingots_pdf_url
  rw [hs]

/-- C4 witness: on a page holding both a strict "Ingots" link and a dated
Ingot-05-06-2024.pdf link, the strict link's resolved URL is returned. -/
theorem c4_witness :
    strictIngotsHref c4Page = some "/x/circ.pdf" ∧
    dateyPdfHref c4Page = some "/y/Ingot-05-06-2024.pdf" ∧
    find_ingots_pdf_url c4Page = some (urljoinNalco "/x/circ.pdf") ∧
    urljoinNalco "/x/circ.pdf" = "https://nalcoindia.com/x/circ.pdf" :=
  ⟨by decide, by decide,
   c4_tier_priority c4Page "/x/circ.pdf" "/y/Ingot-05-06-2024.pdf" (by decide) (by decide),
   by decide⟩

/- ===================== C7: date resolution ===================== -/

/-- C7: the resolver returns the embedded day-month-year exactly when the
filename ends in Ingot-DD-MM-YYYY.pdf with a valid calendar date; on a
pattern mismatch or an invalid calendar date it returns the run's current
date in the same format, and it is total (never an error); in particular
Ingot-31-02-2024.pdf yields the current date. -/
theorem c7_date_resolution :
    (∀ name today d m y, dateyMatch name = some (d, m, y) → validDate d m y = true →
      parse_circular_date_from_filename name today = fmtDMY (d, m, y)) ∧
    (∀ name today d m y, dateyMatch name = some (d, m, y) → validDate d m y = false →
      parse_circular_date_from_filename name today = fmtDMY today) ∧
    (∀ name today, dateyMatch name = none →
      parse_circular_date_from_filename name today = fmtDMY today) ∧
    (∀ today, parse_circular_date_from_filename "Ingot-31-02-2024.pdf" today = fmtDMY today) := by
  refine ⟨?_, ?_, ?_, ?_⟩
  · intro name today d m y hm hv
    unfold parse_circular_date_from_filename
    rw [hm]
    simp [hv]
  · intro name today d m y hm hv
    unfold parse_circular_date_from_filename
    rw [hm]
    simp [hv]
  · intro name today hm
    unfold parse_circular_date_from_filename
    rw [hm]
  · intro today
    unfold parse_circular_date_from_filename
    rw [show dateyMatch "Ingot-31-02-2024.pdf" = some (31, 2, 2024) from rfl]
    simp [show validDate 31 2 2024 = false from rfl]

/-- C7 witness: a valid dated filename resolves to its embedded date, an
invalid calendar date to the run's current date. -/
theorem c7_witness :
    parse_circular_date_from_filename "Ingot-05-06-2024.pdf" (12, 10, 2026) = fmtDMY (5, 6, 2024) ∧
    fmtDMY (5, 6, 2024) = "05-06-2024" ∧
    parse_circular_date_from_filename "Ingot-31-02-2024.pdf" (12, 10, 2026) = fmtDMY (12, 10, 2026) :=
  ⟨c7_date_resolution.1 "Ingot-05-06-2024.pdf" (12, 10, 2026) 5 6 2024 (by decide) (by decide),
   by decide,
   c7_date_resolution.2.2.2 (12, 10, 2026)⟩

/- ===================== C6: price normalization ===================== -/

/-- C6: "268,250" normalizes to 268.250 and "1000000" to 1000.000; a
string that fails to parse after separator removal yields none, and in
main a none price is the fatal price-normalization error. -/
theorem c6_price_normalization :
    to_thousands "268,250" = some (mkRat 268250 1000) ∧
    to_thousands "1000000" = some (mkRat 1000000 1000) ∧
    (∀ s, pyFloat (pyStrip (removeCommas s)) = none → to_thousands s = none) ∧
    (∀ inp st u fname doc rec, find_ingots_pdf_url inp.page = some u → u ≠ st.lastUrl →
      download_pdf u inp.resp = Except.ok (fname, doc) →
      extract_row_ie07 doc = some rec → to_thousands rec.basicPrice = none →
      (mainRun inp st).outcome =
        Outcome.fatal ("Could not parse numeric price from " ++ rec.basicPrice)) := by
  refine ⟨by decide, by decide, ?_, ?_⟩
  · intro s h
    unfold to_thousands
    simp only [h]
    split <;> rfl
  · intro inp st u fname doc rec hf hg hdl he ht
    unfold mainRun
    simp only [hf, if_neg hg, hdl, he, ht]

/-- C6 witness: a non-numeric extracted price yields none and makes the
run fatal. -/
theorem c6_witness :
    to_thousands "abc" = none ∧
    (mainRun inpBadPrice st0).outcome =
      Outcome.fatal ("Could not parse numeric price from " ++ "x1y") := by
  constructor
  · exact c6_price_normalization.2.2.1 "abc" (by decide)
  · have h := c6_price_normalization.2.2.2 inpBadPrice st0
      (urljoinNalco "/c/Ingot-05-06-2024.pdf") "Ingot-05-06-2024.pdf" badPriceDoc
      { description := "X", productCode := "IE07", basicPrice := "x1y" }
      (by decide) (by decide) rfl (by decide) (by decide)
    exact h

/- ===================== C2: audit entry on fatal paths ===================== -/

/-- C2 counterexample: a run in which a URL is chosen and the download
then fails fatally writes no audit entry at all, so no entry captures the
chosen URL. -/
theorem c2_counterexample :
    (mainRun inpBadStatus st0).outcome =
      Outcome.fatal ("HTTP error fetching " ++ urljoinNalco "/c/Ingot-05-06-2024.pdf") ∧
    find_ingots_pdf_url inpBadStatus.page = some (urljoinNalco "/c/Ingot-05-06-2024.pdf") ∧
    st0.runlog = [] ∧
    (mainRun inpBadStatus st0).state.runlog = [] := by
  refine ⟨by decide, by decide, rfl, by decide⟩

/-- C2 amended: on every fatal path the failure propagates with the audit
log unchanged — no entry is written for fatal runs; entries are written
only by the skip paths and the success path. -/
theorem c2_amended (inp : RunInputs) (st : RunState) (m : String)
    (h : (mainRun inp st).outcome = Outcome.fatal m) :
    (mainRun inp st).state.runlog = st.runlog := by
  cases hf : find_ingots_pdf_url inp.page with
  | none => rw [mainRun_no_doc inp st hf] at h; simp at h
  | some url =>
    by_cases hg : url = st.lastUrl
    · rw [mainRun_skip inp st url hf hg] at h; simp at h
    · cases hdl : download_pdf url inp.resp with
      | error m2 => rw [mainRun_dl_fatal inp st url m2 hf hg hdl]
      | ok pr =>
        obtain ⟨fname, doc⟩ := pr
        cases he : extract_row_ie07 doc with
        | none => rw [mainRun_extract_fatal inp st url fname doc hf hg hdl he]
        | some rec =>
          cases ht : to_thousands rec.basicPrice with
          | none => rw [mainRun_price_fatal inp st url fname doc rec hf hg hdl he ht]
          | some q =>
            rw [mainRun_updated_eq inp st url fname doc rec q hf hg hdl he ht] at h
            simp at h

/-- C2 witness: the amended statement at the failing-download run. -/
theorem c2_witness : (mainRun inpBadStatus st0).state.runlog = st0.runlog := by
  have h := c2_amended inpBadStatus st0
    ("HTTP error fetching " ++ urljoinNalco "/c/Ingot-05-06-2024.pdf") (by decide)
  exact h

/- ===================== C3: change gate ===================== -/

/-- C3: when the located URL equals the stored marker the run is SKIPPED
with zero rows appended, nothing is downloaded, and neither the ledger nor
the marker changes; consequently a second invocation with unchanged
locator output after a successful run appends exactly one SKIPPED entry
and leaves the ledger untouched. -/
theorem c3_change_gate :
    (∀ inp st u, find_ingots_pdf_url inp.page = some u → u = st.lastUrl →
      (mainRun inp st).outcome = Outcome.skippedUnchanged ∧
      (mainRun inp st).downloaded = false ∧
      (mainRun inp st).state.ledger = st.ledger ∧
      (mainRun inp st).state.lastUrl = st.lastUrl ∧
      (mainRun inp st).state.runlog = st.runlog ++
        [{ runUtc := inp.runUtc, runIst := inp.runIst, status := "SKIPPED",
           message := "No change in PDF. Skipping download & Excel update.",
           chosenUrl := u, savedPdf := "", rowsAppended := 0, totalRowsAfter := none }]) ∧
    (∀ inp1 inp2 st, inp2.page = inp1.page →
      (mainRun inp1 st).outcome = Outcome.updated →
      (mainRun inp2 (mainRun inp1 st).state).state.ledger = (mainRun inp1 st).state.ledger ∧
      (mainRun inp2 (mainRun inp1 st).state).downloaded = false ∧
      ∃ e, (mainRun inp2 (mainRun inp1 st).state).state.runlog =
             (mainRun inp1 st).state.runlog ++ [e] ∧
           e.status = "SKIPPED" ∧ e.rowsAppended = 0) := by
  constructor
  · intro inp st u hf hg
    rw [mainRun_skip inp st u hf hg]
    exact ⟨rfl, rfl, rfl, rfl, rfl⟩
  · intro inp1 inp2 st hp h
    cases hf : find_ingots_pdf_url inp1.page with
    | none => rw [mainRun_no_doc _ _ hf] at h; simp at h
    | some url =>
      by_cases hg : url = st.lastUrl
      · rw [mainRun_skip _ _ _ hf hg] at h; simp at h
      · cases hdl : download_pdf url inp1.resp with
        | error m2 => rw [mainRun_dl_fatal _ _ _ _ hf hg hdl] at h; simp at h
        | ok pr =>
          obtain ⟨fname, doc⟩ := pr
          cases he : extract_row_ie07 doc with
          | none => rw [mainRun_extract_fatal _ _ _ _ _ hf hg hdl he] at h; simp at h
          | some rec =>
            cases ht : to_thousands rec.basicPrice with
            | none => rw [mainRun_price_fatal _ _ _ _ _ _ hf hg hdl he ht] at h; simp at h
            | some q =>
              rw [mainRun_updated_eq inp1 st url fname doc rec q hf hg hdl he ht]
              have hf2 : find_ingots_pdf_url inp2.page = some url := by rw [hp]; exact hf
              rw [mainRun_skip inp2 _ url hf2 rfl]
              exact ⟨rfl, rfl, ⟨_, rfl, rfl, rfl⟩⟩

/-- C3 witness: after the successful end-to-end run, re-running with the
same page skips: same ledger, nothing downloaded, one SKIPPED entry. -/
theorem c3_witness :
    (mainRun inpOk (mainRun inpOk st0).state).state.ledger = (mainRun inpOk st0).state.ledger ∧
    (mainRun inpOk (mainRun inpOk st0).state).downloaded = false ∧
    ∃ e, (mainRun inpOk (mainRun inpOk st0).state).state.runlog =
           (mainRun inpOk st0).state.runlog ++ [e] ∧
         e.status = "SKIPPED" ∧ e.rowsAppended = 0 := by
  have h := c3_change_gate.2 inpOk inpOk st0 rfl (by decide)
  exact h

/- ===================== C9: marker gating on download ===================== -/

/-- C9: the marker changes only on a download that succeeded with an
application/pdf content type, and then to the chosen URL; a failing
download is fatal and leaves the marker untouched. -/
theorem c9_marker_update :
    (∀ inp st u m, find_ingots_pdf_url inp.page = some u → u ≠ st.lastUrl →
      download_pdf u inp.resp = Except.error m →
      (mainRun inp st).outcome = Outcome.fatal m ∧
      (mainRun inp st).state.lastUrl = st.lastUrl) ∧
    (∀ inp st, (mainRun inp st).state.lastUrl ≠ st.lastUrl →
      ∃ u fname doc, find_ingots_pdf_url inp.page = some u ∧
        download_pdf u inp.resp = Except.ok (fname, doc) ∧
        (mainRun inp st).state.lastUrl = u) ∧
    (∀ url resp fname doc, download_pdf url resp = Except.ok (fname, doc) →
      resp.statusOk = true ∧
      containsL (pyLower resp.contentType).data "application/pdf".data = true) := by
  refine ⟨?_, ?_, ?_⟩
  · intro inp st u m hf hg hdl
    rw [mainRun_dl_fatal inp st u m hf hg hdl]
    exact ⟨rfl, rfl⟩
  · intro inp st h
    cases hf : find_ingots_pdf_url inp.page with
    | none => rw [mainRun_no_doc _ _ hf] at h; exact absurd rfl h
    | some url =>
      by_cases hg : url = st.lastUrl
      · rw [mainRun_skip _ _ _ hf hg] at h; exact absurd rfl h
      · cases hdl : download_pdf url inp.resp with
        | error m2 => rw [mainRun_dl_fatal _ _ _ _ hf hg hdl] at h; exact absurd rfl h
        | ok pr =>
          obtain ⟨fname, doc⟩ := pr
          refine ⟨url, fname, doc, rfl, hdl, ?_⟩
          cases he : extract_row_ie07 doc with
          | none => rw [mainRun_extract_fatal _ _ _ _ _ hf hg hdl he]
          | some rec =>
            cases ht : to_thousands rec.basicPrice with
            | none => rw [mainRun_price_fatal _ _ _ _ _ _ hf hg hdl he ht]
            | some q => rw [mainRun_updated_eq _ _ _ _ _ _ _ hf hg hdl he ht]
  · intro url resp fname doc h
    unfold download_pdf at h
    split at h
    · exact absurd h (by simp)
    · split at h
      · exact absurd h (by simp)
      · rename_i h1 h2
        constructor
        · revert h1; cases resp.statusOk <;> simp
        · revert h2; cases hc : containsL (pyLower resp.contentType).data "application/pdf".data <;> simp

/-- C9 witness: a failed download is fatal and leaves the empty marker in
place, and a successful pdf download implies the ok status and content
type. -/
theorem c9_witness :
    ((mainRun inpBadStatus st0).outcome =
        Outcome.fatal ("HTTP error fetching " ++ urljoinNalco "/c/Ingot-05-06-2024.pdf") ∧
      (mainRun inpBadStatus st0).state.lastUrl = st0.lastUrl) ∧
    (okResp.statusOk = true ∧
      containsL (pyLower okResp.contentType).data "application/pdf".data = true) := by
  constructor
  · exact c9_marker_update.1 inpBadStatus st0 (urljoinNalco "/c/Ingot-05-06-2024.pdf")
      ("HTTP error fetching " ++ urljoinNalco "/c/Ingot-05-06-2024.pdf")
      (by decide) (by decide) rfl
  · exact c9_marker_update.2.2 (urljoinNalco "/c/Ingot-05-06-2024.pdf") okResp
      "Ingot-05-06-2024.pdf" specDoc rfl

/- ===================== C1: page-scan order ===================== -/

/-- C1 counterexample: on a document whose page 1 line-scan matches and
whose page 2 table row also matches, the extractor returns the page-1
line-scan record, not the page-2 table record — refuting the claim that a
table result on any page always wins over the line-scan fallback. -/
theorem c1_counterexample :
    extract_row_ie07 c1Doc =
      some { description := "ALUMINIUM INGOT", productCode := "IE07", basicPrice := "12345" } ∧
    scanTables c1Page2 =
      some { description := "ALUMINIUM INGOT", productCode := "IE07", basicPrice := "268250" } ∧
    ({ description := "ALUMINIUM INGOT", productCode := "IE07", basicPrice := "12345" } :
        IE07Record) ≠
      { description := "ALUMINIUM INGOT", productCode := "IE07", basicPrice := "268250" } :=
  ⟨by decide, by decide, by decide⟩

/-- C1 amended: within each page the table strategy is tried before the
line-scan fallback, and the first accepted result in page order wins; so a
table result on page i is returned whenever no strategy accepted anything
on an earlier page — but a line-scan hit on an earlier page takes
precedence over a table hit on a later page. -/
theorem c1_amended (doc : PdfDoc) (i : Nat) (p : PdfPage) (r : IE07Record)
    (hp : doc.get? i = some p)
    (hprev : ∀ j q, j < i → doc.get? j = some q → extractPage q = none)
    (ht : scanTables p = some r) :
    extract_row_ie07 doc = some r := by
  induction doc generalizing i with
  | nil => simp at hp
  | cons hd tl ih =>
    unfold extract_row_ie07
    rw [List.findSome?_cons]
    cases i with
    | zero =>
      simp only [List.get?] at hp
      cases hp
      unfold extractPage
      rw [ht]
    | succ n =>
      have h0 : extractPage hd = none := hprev 0 hd (Nat.succ_pos n) rfl
      rw [h0]
      exact ih n hp (fun j q hj hq => hprev (j + 1) q (by omega) hq)

/-- C1 witness for the amended statement: with page 1 empty, the page-2
table result is returned. -/
theorem c1_witness :
    extract_row_ie07 c1DocB =
      some { description := "ALUMINIUM INGOT", productCode := "IE07", basicPrice := "268250" } := by
  have h := c1_amended c1DocB 1 c1Page2
    { description := "ALUMINIUM INGOT", productCode := "IE07", basicPrice := "268250" }
    (by decide)
    (by
      intro j q hj hq
      have hj0 : j = 0 := by omega
      subst hj0
      rw [show c1DocB.get? 0 = some c1PageEmpty from rfl] at hq
      injection hq with hq2
      subst hq2
      decide)
    (by decide)
  exact h

/- ===================== C5: Sl.no. assignment ===================== -/

/-- C5: the next Sl.no. is 1 on a ledger without values and the maximum
existing value plus one otherwise, is invariant under any reordering of
the ledger, the appended row carries it, and the ledger with values
5, 1, 2 yields 6. -/
theorem c5_slno_assignment :
    (∀ rows : List Row, rows.filterMap Row.slNo = [] → nextSlNo rows = 1) ∧
    (∀ (rows : List Row) (m : ℤ), m ∈ rows.filterMap Row.slNo →
      (∀ v ∈ rows.filterMap Row.slNo, v ≤ m) → nextSlNo rows = m + 1) ∧
    (∀ r1 r2 : List Row, r1.Perm r2 → nextSlNo r1 = nextSlNo r2) ∧
    (∀ (rows : List Row) (nr : NewRecord),
      ∃ r, r ∈ (append_to_excel rows nr).1 ∧ r.slNo = some (nextSlNo rows)) ∧
    nextSlNo c5Ledger = 6 := by
  have hmax : ∀ (xs : List ℤ) (m : ℤ), m ∈ xs → (∀ v ∈ xs, v ≤ m) → xs.max? = some m := by
    intro xs m hm hb
    have inst : Std.Antisymm (fun (a b : ℤ) => a ≤ b) := ⟨fun h1 h2 => le_antisymm h1 h2⟩
    rw [@List.max?_eq_some_iff ℤ m _ _ inst le_refl (fun a b => max_choice a b)
      (fun a b c => max_le_iff)]
    exact ⟨hm, hb⟩
  refine ⟨?_, ?_, ?_, ?_, by decide⟩
  · intro rows h
    unfold nextSlNo
    rw [h]
    rfl
  · intro rows m hm hb
    unfold nextSlNo
    rw [hmax _ m hm hb]
  · intro r1 r2 hperm
    have hp : (r1.filterMap Row.slNo).Perm (r2.filterMap Row.slNo) := hperm.filterMap _
    unfold nextSlNo
    cases h1 : (r1.filterMap Row.slNo).max? with
    | none =>
      rw [List.max?_eq_none_iff] at h1
      have h2 : r2.filterMap Row.slNo = [] := List.Perm.eq_nil (h1 ▸ hp).symm
      rw [List.max?_eq_none_iff.mpr h2]
    | some m =>
      have inst : Std.Antisymm (fun (a b : ℤ) => a ≤ b) := ⟨fun h1 h2 => le_antisymm h1 h2⟩
      rw [@List.max?_eq_some_iff ℤ m _ _ inst le_refl (fun a b => max_choice a b)
        (fun a b c => max_le_iff)] at h1
      rw [hmax _ m (hp.mem_iff.mp h1.1) (fun v hv => h1.2 v (hp.mem_iff.mpr hv))]
  · intro rows nr
    refine ⟨normalizeRow
      { slNo := some (nextSlNo rows), description := nr.description,
        productCode := nr.productCode, basicPrice := some nr.basicPrice,
        circularDate := nr.circularDate, circularLink := nr.circularLink }, ?_, rfl⟩
    unfold append_to_excel sort_and_format_df
    exact List.mem_map_of_mem normalizeRow
      ((stableSort_perm rowLe _).mem_iff.mpr
        (List.mem_append_right rows (List.mem_singleton.mpr rfl)))

/-- C5 witness: appending to the 5, 1, 2 ledger assigns Sl.no. 6 and the
saved set contains the new row with it. -/
theorem c5_witness :
    nextSlNo c5Ledger = 5 + 1 ∧
    ∃ r, r ∈ (append_to_excel c5Ledger c5New).1 ∧ r.slNo = some (nextSlNo c5Ledger) := by
  constructor
  · exact c5_slno_assignment.2.1 c5Ledger 5 (by decide) (by decide)
  · exact c5_slno_assignment.2.2.2.1 c5Ledger c5New

/- ===================== C8: persisted order ===================== -/

theorem slLe_trans (x y z : Option ℤ) (h1 : slLe x y = true) (h2 : slLe y z = true) :
    slLe x z = true := by
  cases x <;> cases y <;> cases z <;> simp [slLe] at * <;> omega

theorem slLe_total (x y : Option ℤ) : (slLe x y || slLe y x) = true := by
  cases x <;> cases y <;> simp [slLe] <;> omega

theorem rowLe_trans (a b c : Row) (h1 : rowLe a b = true) (h2 : rowLe b c = true) :
    rowLe a c = true := by
  unfold rowLe at *
  simp only [Bool.or_eq_true, Bool.and_eq_true, decide_eq_true_eq] at *
  rcases h1 with h1 | ⟨h1e, h1s⟩ <;> rcases h2 with h2 | ⟨h2e, h2s⟩
  · exact Or.inl (by omega)
  · exact Or.inl (by omega)
  · exact Or.inl (by omega)
  · exact Or.inr ⟨by omega, slLe_trans _ _ _ h1s h2s⟩

theorem rowLe_total (a b : Row) : (rowLe a b || rowLe b a) = true := by
  unfold rowLe
  simp only [Bool.or_eq_true, Bool.and_eq_true, decide_eq_true_eq]
  rcases Nat.lt_trichotomy (dateKey a) (dateKey b) with h | h | h
  · exact Or.inl (Or.inl h)
  · rcases (by simpa using slLe_total a.slNo b.slNo :
        slLe a.slNo b.slNo = true ∨ slLe b.slNo a.slNo = true) with hs | hs
    · exact Or.inl (Or.inr ⟨h, hs⟩)
    · exact Or.inr (Or.inr ⟨h.symm, hs⟩)
  · exact Or.inr (Or.inl h)

theorem validDate_bounds (d m y : Nat) (hv : validDate d m y = true) :
    1 ≤ d ∧ d ≤ 31 ∧ 1 ≤ m ∧ m ≤ 12 ∧ 1 ≤ y ∧ y ≤ 9999 := by
  unfold validDate at hv
  simp only [Bool.and_eq_true, decide_eq_true_eq] at hv
  have hdm : daysInMonth y m ≤ 31 := by
    unfold daysInMonth
    split
    · split <;> omega
    · split <;> omega
  omega

theorem string_mk_data (l : List Char) : (String.mk l).data = l := rfl

theorem parseDMY_fmtDMY (d m y : Nat) (hv : validDate d m y = true) :
    parseDMY (fmtDMY (d, m, y)) = some (d, m, y) := by
  obtain ⟨h1, h2, h3, h4, h5, h6⟩ := validDate_bounds d m y hv
  have hOf : ∀ x : Nat, x < 10 → (Char.ofNat (48 + x)).toNat = 48 + x :=
    fun x hx => charOfNat_toNat (by omega)
  have hdig : ∀ x : Nat, x < 10 → isDigitC (Char.ofNat (48 + x)) = true := by
    intro x hx
    unfold isDigitC
    simp only [hOf x hx, Bool.and_eq_true, decide_eq_true_eq]
    omega
  have e1 : d2 (Char.ofNat (48 + d / 10 % 10)) (Char.ofNat (48 + d % 10)) = d := by
    unfold d2
    rw [hOf _ (by omega), hOf _ (by omega)]
    omega
  have e2 : d2 (Char.ofNat (48 + m / 10 % 10)) (Char.ofNat (48 + m % 10)) = m := by
    unfold d2
    rw [hOf _ (by omega), hOf _ (by omega)]
    omega
  have e3 : d4 (Char.ofNat (48 + y / 1000 % 10)) (Char.ofNat (48 + y / 100 % 10))
      (Char.ofNat (48 + y / 10 % 10)) (Char.ofNat (48 + y % 10)) = y := by
    unfold d4 d2
    rw [hOf _ (by omega), hOf _ (by omega), hOf _ (by omega), hOf _ (by omega)]
    omega
  unfold fmtDMY fmt2 fmt4 parseDMY
  simp only [string_mk_data, List.cons_append, List.nil_append]
  simp only [hdig (d / 10 % 10) (by omega), hdig (d % 10) (by omega),
    hdig (m / 10 % 10) (by omega), hdig (m % 10) (by omega),
    hdig (y / 1000 % 10) (by omega), hdig (y / 100 % 10) (by omega),
    hdig (y / 10 % 10) (by omega), hdig (y % 10) (by omega)]
  simp only [e1, e2, e3, hv]
  simp

theorem parseDMY_some_valid (s : String) (d m y : Nat)
    (h : parseDMY s = some (d, m, y)) : validDate d m y = true := by
  simp only [parseDMY] at h
  split at h
  · split at h
    · split at h
      · rename_i hvt
        cases h
        exact hvt
      · simp at h
    · simp at h
  · simp at h

theorem normalizeRow_dateKey (r : Row) : dateKey (normalizeRow r) = dateKey r := by
  unfold normalizeRow dateKey
  cases hp : parseDMY r.circularDate with
  | none => simp [hp, show parseDMY "" = none from rfl]
  | some t =>
    obtain ⟨d, m, y⟩ := t
    have hv := parseDMY_some_valid _ _ _ _ hp
    simp [hp, parseDMY_fmtDMY d m y hv]

theorem normalizeRow_slNo (r : Row) : (normalizeRow r).slNo = r.slNo := rfl

theorem rowLe_norm (a b : Row) :
    rowLe (normalizeRow a) (normalizeRow b) = rowLe a b := by
  unfold rowLe
  rw [normalizeRow_dateKey a, normalizeRow_dateKey b, normalizeRow_slNo, normalizeRow_slNo]

/-- C8: every saved ledger is ordered by the sort relation (Circular Date
descending, Sl.no. ascending), is a permutation of the re-normalized
input, the sort is stable (order-respecting pairs keep their relative
positions), and two same-date rows with Sl.no. 3 and 7 come out 3 first. -/
theorem c8_persisted_order :
    (∀ rows, (sort_and_format_df rows).Pairwise (fun a b => rowLe a b = true)) ∧
    (∀ rows, (sort_and_format_df rows).Perm (rows.map normalizeRow)) ∧
    (∀ rows a b, rowLe a b = true → [a, b].Sublist rows →
      [normalizeRow a, normalizeRow b].Sublist (sort_and_format_df rows)) ∧
    sort_and_format_df [c8Row7, c8Row3] = [c8Row3, c8Row7] := by
  refine ⟨?_, ?_, ?_, by decide⟩
  · intro rows
    unfold sort_and_format_df
    rw [List.pairwise_map]
    exact (stableSort_pairwise rowLe_trans rowLe_total rows).imp
      (fun h => by rw [rowLe_norm]; exact h)
  · intro rows
    unfold sort_and_format_df
    exact (stableSort_perm rowLe rows).map normalizeRow
  · intro rows a b hab hsub
    unfold sort_and_format_df
    exact (pair_sublist_stableSort a b hab rows hsub).map normalizeRow

/-- C8 witness: the stability statement applied to the concrete same-date
pair. -/
theorem c8_witness :
    [normalizeRow c8Row3, normalizeRow c8Row7].Sublist
      (sort_and_format_df [c8Row3, c8Row7]) := by
  have h := c8_persisted_order.2.2.1 [c8Row3, c8Row7] c8Row3 c8Row7
    (by decide) (List.Sublist.refl _)
  exact h

/- ===================== C10: descriptions upper-cased ===================== -/

theorem upC_not_lower (c : Char) : ¬(97 ≤ (upC c).toNat ∧ (upC c).toNat ≤ 122) := by
  unfold upC
  split
  · rename_i h
    simp only [Bool.and_eq_true, decide_eq_true_eq] at h
    rw [charOfNat_toNat (show c.toNat - 32 < 55296 by omega)]
    omega
  · rename_i h
    intro hcon
    apply h
    simp only [Bool.and_eq_true, decide_eq_true_eq]
    exact hcon

theorem pyUpper_noLower (s : String) : noLowerStr (pyUpper s) := by
  intro c hc
  rcases List.mem_map.mp hc with ⟨d, _, rfl⟩
  exact upC_not_lower d

theorem scanTableRow_desc (row : List (Option String)) (r : IE07Record)
    (h : scanTableRow row = some r) : ∃ x, r.description = pyUpper x := by
  simp only [scanTableRow] at h
  split at h
  · split at h
    · split at h
      · cases h
        exact ⟨_, rfl⟩
      · simp at h
    · simp at h
  · simp at h

theorem scanLine_desc (t : String) (r : IE07Record) (h : scanLine t = some r) :
    ∃ x, r.description = pyUpper (pyStrip x) := by
  simp only [scanLine] at h
  split at h
  · split at h
    · cases h
      exact ⟨_, rfl⟩
    · simp at h
  · simp at h

theorem extract_desc (doc : PdfDoc) (r : IE07Record)
    (h : extract_row_ie07 doc = some r) : ∃ x, r.description = pyUpper x := by
  obtain ⟨p, _, hp⟩ := exists_of_findSome _ _ _ h
  unfold extractPage at hp
  cases hs : scanTables p with
  | some r0 =>
    simp only [hs] at hp
    cases hp
    obtain ⟨tbl, _, htbl⟩ := exists_of_findSome _ _ _ hs
    obtain ⟨row, _, hrow⟩ := exists_of_findSome _ _ _ htbl
    exact scanTableRow_desc row r hrow
  | none =>
    simp only [hs] at hp
    unfold scanWords at hp
    obtain ⟨k, _, hk⟩ := exists_of_findSome _ _ _ hp
    obtain ⟨x, hx⟩ := scanLine_desc _ r hk
    exact ⟨pyStrip x, hx⟩

/-- C10: every description returned by the extractor is free of lower-case
letters; the table strategy returns an upper-cased cell (or default) and
the line-scan a stripped, upper-cased match (or default). -/
theorem c10_description_upper :
    (∀ doc r, extract_row_ie07 doc = some r → noLowerStr r.description) ∧
    (∀ row r, scanTableRow row = some r → ∃ x, r.description = pyUpper x) ∧
    (∀ t r, scanLine t = some r → ∃ x, r.description = pyUpper (pyStrip x)) := by
  refine ⟨?_, scanTableRow_desc, scanLine_desc⟩
  intro doc r h
  obtain ⟨x, hx⟩ := extract_desc doc r h
  rw [hx]
  exact pyUpper_noLower x

/-- C10 witness: the record extracted from the scenario document has an
upper-case-only description. -/
theorem c10_witness : noLowerStr "ALUMINIUM INGOT" := by
  have h := c10_description_upper.1 specDoc
    { description := "ALUMINIUM INGOT", productCode := "IE07", basicPrice := "268250" }
    (by decide)
  exact h

end Nalco
